import Mathlib

/-!
Verification model of the self-healing generate/execute/repair loop of
`main.py` (algorithm-animation-generator).

The Python source is shallowly embedded: the external collaborators
(the manim executor subprocess, the LLM repair service, the filesystem
video discovery) are oracles collected in an `Env` record, and the loop
`run_with_auto_fix` is translated into a Lean function that returns the
ordered trace of observable actions (artifact writes, byproduct purges,
executor invocations, failure-archive snapshots, repair calls) together
with the terminal outcome of the run.
-/

namespace AlgoAnim

/-- `MANIM_CLASS_NAME = "AlgorithmAnimation"` (main.py line 26). -/
def MANIM_CLASS_NAME : String := "AlgorithmAnimation"

/-- `MAX_RETRIES = 3` (main.py line 29), the repository default retry budget. -/
def MAX_RETRIES : Nat := 3

/-- The structural marker checked by `main` (line 135) and by the repair
acceptance test (line 283): the literal substring `class AlgorithmAnimation`. -/
def classMarker : String := "class AlgorithmAnimation"

/-- Python substring test `needle in hay`, on exploded character lists. -/
def substrIn (needle : List Char) : List Char → Bool
  | [] => needle.isEmpty
  | c :: t => needle.isPrefixOf (c :: t) || substrIn needle t

/-- `"class AlgorithmAnimation" in code`. -/
def hasMarker (code : String) : Bool :=
  substrIn classMarker.toList code.toList

/-- Outcome of one `subprocess.run(["manim", ...])` spawn:
`ok s` is a zero exit status with stderr text `s`;
`err s` is `CalledProcessError` with stderr text `s`;
`missing` is a `FileNotFoundError` (the executor binary is absent),
which no function of main.py catches. -/
inductive ExecOutcome where
  | ok (stderrText : String)
  | err (stderrText : String)
  | missing
deriving DecidableEq

/-- The external world of one run: `exec attempt code` is the outcome of the
manim subprocess at the given loop attempt with the given live artifact
(the operator input string passed via the ALGO_USER_INPUT_DATA environment
variable is fixed for the run and folded into the oracle);
`repair attempt code stderrText` is the value returned by
`fix_manim_code(code, stderr)` at that point (`none` is Python `None`);
`findVideo` is the result of `_find_latest_video()`. -/
structure Env where
  exec : Nat → String → ExecOutcome
  repair : Nat → String → String → Option String
  findVideo : Option String

/-- Observable actions of a run, in program order:
`writeArtifact k code` is `save_code` for attempt `k` (the live slot
GENERATED_CODE_PATH); `purge` is `clean_previous_outputs()` (removes the
partial movie files, the final AlgorithmAnimation.mp4 and the media/texts
cache); `invoke k` is the manim subprocess spawn of attempt `k` inside
`_render_manim_core`; `snapshot k code s` is
`save_error_snapshot(name, k, code, s)`; `repairCall k code s` is
`fix_manim_code(code, s)`; `notifyNoResult` is the message printed when a
successful render yields no discoverable video file. -/
inductive Event where
  | writeArtifact (attempt : Nat) (code : String)
  | purge
  | invoke (attempt : Nat)
  | snapshot (attempt : Nat) (code stderrText : String)
  | repairCall (attempt : Nat) (code stderrText : String)
  | notifyNoResult
deriving DecidableEq

/-- Terminal outcome of `run_with_auto_fix`: `succeeded v` is the success
break (with the discovered video, if any); `exhaustedRetries` is the break
at `attempt >= MAX_RETRIES`; `repairUnavailable` is the break when the
repair service returns no usable candidate; `fatalNoExecutor` is the
uncaught `FileNotFoundError` aborting the whole program. -/
inductive RunResult where
  | succeeded (video : Option String)
  | exhaustedRetries
  | repairUnavailable
  | fatalNoExecutor
deriving DecidableEq

/-- `_render_manim_core` (main.py lines 339-360): a single manim spawn with
the `-pql` flags, no fallback; `none` models the uncaught
`FileNotFoundError`. -/
def render_manim_core (env : Env) (attempt : Nat) (code : String) :
    Option (Bool × String) :=
  match env.exec attempt code with
  | .ok s => some (true, s)
  | .err s => some (false, s)
  | .missing => none

/-- One pass of the `while True` body of `run_with_auto_fix` starting at the
given attempt counter, together with all later passes (main.py lines
238-288). Program order of each pass: `save_code`, `clean_previous_outputs`,
the single `_render_manim_core` spawn; on success the loop breaks (printing
a notice when no video is found); on failure the snapshot is archived, then
the budget test `attempt >= MAX_RETRIES` breaks, otherwise `fix_manim_code`
is called and its result accepted only when non-empty and containing the
structural marker, in which case the loop continues at `attempt + 1`. -/
def loopIter (env : Env) (N : Nat) (code : String) (attempt : Nat) :
    List Event × RunResult :=
  let pre : List Event := [.writeArtifact attempt code, .purge, .invoke attempt]
  match env.exec attempt code with
  | .missing => (pre, .fatalNoExecutor)
  | .ok _ =>
      match env.findVideo with
      | some v => (pre, .succeeded (some v))
      | none => (pre ++ [.notifyNoResult], .succeeded none)
  | .err stderrText =>
      let withSnap := pre ++ [.snapshot attempt code stderrText]
      if _h : N ≤ attempt then
        (withSnap, .exhaustedRetries)
      else
        let afterRepair := withSnap ++ [.repairCall attempt code stderrText]
        match env.repair attempt code stderrText with
        | none => (afterRepair, .repairUnavailable)
        | some fixedCode =>
            if fixedCode = "" || !hasMarker fixedCode then
              (afterRepair, .repairUnavailable)
            else
              let rest := loopIter env N fixedCode (attempt + 1)
              (afterRepair ++ rest.1, rest.2)
termination_by N - attempt
decreasing_by omega

/-- `run_with_auto_fix` (main.py lines 228-288) with the retry budget
`MAX_RETRIES` generalized to a parameter `N`: the loop starts with
`attempt = 0` on the generator output. -/
def run_with_auto_fix (env : Env) (N : Nat) (initialCode : String) :
    List Event × RunResult :=
  loopIter env N initialCode 0

/-- Terminal outcome of `main` from step 4 on: `invalid` is the
`else` branch of line 135 (no valid generated code, nothing is run). -/
inductive MainResult where
  | invalid
  | ran (r : RunResult)
deriving DecidableEq

/-- The dispatch of `main` (main.py lines 135-141): the loop runs only when
the generator returned a truthy string containing the structural marker. -/
def mainDispatch (env : Env) (N : Nat) (generatedCode : Option String) :
    List Event × MainResult :=
  match generatedCode with
  | some code =>
      if !code.isEmpty && hasMarker code then
        let r := run_with_auto_fix env N code
        (r.1, .ran r.2)
      else ([], .invalid)
  | none => ([], .invalid)

/-- Event classifiers and trace statistics. -/
def isInvoke : Event → Bool
  | .invoke _ => true
  | _ => false

def isSnapshot : Event → Bool
  | .snapshot _ _ _ => true
  | _ => false

def isRepairCall : Event → Bool
  | .repairCall _ _ _ => true
  | _ => false

/-- Number of Execution Harness invocations (manim subprocess spawns of the
loop) recorded in a trace. -/
def invokeCount (tr : List Event) : Nat := tr.countP isInvoke

/-- Number of failure-archive snapshot pairs recorded in a trace. -/
def snapshotCount (tr : List Event) : Nat := tr.countP isSnapshot

/-- Number of repair-service calls recorded in a trace. -/
def repairCount (tr : List Event) : Nat := tr.countP isRepairCall

/-- The attempt indices of the snapshots of a trace, in trace order. -/
def snapIndices (tr : List Event) : List Nat :=
  tr.filterMap fun e =>
    match e with
    | .snapshot k _ _ => some k
    | _ => none

/-- Acceptance test applied to the repair-service result (main.py line 283):
usable exactly when it is a non-empty string containing the structural
marker. -/
def repairUsable (r : Option String) : Bool :=
  match r with
  | none => false
  | some f => !(decide (f = "") || !hasMarker f)

/-! ### Shape of a single loop pass -/

theorem loopIter_missing (env : Env) (N : Nat) (code : String) (attempt : Nat)
    (hx : env.exec attempt code = .missing) :
    loopIter env N code attempt =
      ([.writeArtifact attempt code, .purge, .invoke attempt], .fatalNoExecutor) := by
  rw [loopIter]
  simp [hx]

theorem loopIter_ok_some (env : Env) (N : Nat) (code : String) (attempt : Nat)
    (s v : String) (hx : env.exec attempt code = .ok s)
    (hv : env.findVideo = some v) :
    loopIter env N code attempt =
      ([.writeArtifact attempt code, .purge, .invoke attempt],
        .succeeded (some v)) := by
  rw [loopIter]
  simp [hx, hv]

theorem loopIter_ok_none (env : Env) (N : Nat) (code : String) (attempt : Nat)
    (s : String) (hx : env.exec attempt code = .ok s)
    (hv : env.findVideo = none) :
    loopIter env N code attempt =
      ([.writeArtifact attempt code, .purge, .invoke attempt, .notifyNoResult],
        .succeeded none) := by
  rw [loopIter]
  simp [hx, hv]

theorem loopIter_err_last (env : Env) (N : Nat) (code : String) (attempt : Nat)
    (s : String) (hx : env.exec attempt code = .err s) (hN : N ≤ attempt) :
    loopIter env N code attempt =
      ([.writeArtifact attempt code, .purge, .invoke attempt,
        .snapshot attempt code s], .exhaustedRetries) := by
  rw [loopIter]
  simp [hx, hN]

theorem loopIter_err_halt (env : Env) (N : Nat) (code : String) (attempt : Nat)
    (s : String) (hx : env.exec attempt code = .err s) (hN : attempt < N)
    (hr : repairUsable (env.repair attempt code s) = false) :
    loopIter env N code attempt =
      ([.writeArtifact attempt code, .purge, .invoke attempt,
        .snapshot attempt code s, .repairCall attempt code s],
        .repairUnavailable) := by
  rw [loopIter]
  rcases hcase : env.repair attempt code s with _ | f
  · simp [hx, Nat.not_le.mpr hN, hcase]
  · rw [hcase] at hr
    simp only [repairUsable, Bool.not_eq_false'] at hr
    simp [hx, Nat.not_le.mpr hN, hcase, hr]

theorem loopIter_err_step (env : Env) (N : Nat) (code : String) (attempt : Nat)
    (s f : String) (hx : env.exec attempt code = .err s) (hN : attempt < N)
    (hr : env.repair attempt code s = some f)
    (hu : repairUsable (some f) = true) :
    loopIter env N code attempt =
      ([.writeArtifact attempt code, .purge, .invoke attempt,
        .snapshot attempt code s, .repairCall attempt code s] ++
          (loopIter env N f (attempt + 1)).1,
        (loopIter env N f (attempt + 1)).2) := by
  simp only [repairUsable, Bool.not_eq_eq_eq_not, Bool.not_true,
    Bool.or_eq_false_iff] at hu
  conv_lhs => rw [loopIter]
  simp [hx, Nat.not_le.mpr hN, hr, hu.1, hu.2]

/-! ### Global trace invariants of the loop -/

theorem loopIter_invokeCount (env : Env) (N : Nat) :
    ∀ code attempt, attempt ≤ N →
      invokeCount (loopIter env N code attempt).1 ≤ N + 1 - attempt := by
  intro code attempt
  induction code, attempt using loopIter.induct env N with
  | case1 code attempt hx =>
      intro hle
      rw [loopIter_missing env N code attempt hx]
      simp [invokeCount, List.countP_cons, isInvoke]
      omega
  | case2 code attempt s hx v hv =>
      intro hle
      rw [loopIter_ok_some env N code attempt s v hx hv]
      simp [invokeCount, List.countP_cons, isInvoke]
      omega
  | case3 code attempt s hx hv =>
      intro hle
      rw [loopIter_ok_none env N code attempt s hx hv]
      simp [invokeCount, List.countP_cons, isInvoke]
      omega
  | case4 code attempt s hx hN =>
      intro hle
      rw [loopIter_err_last env N code attempt s hx hN]
      simp [invokeCount, List.countP_cons, isInvoke]
      omega
  | case5 code attempt s hx hN hr =>
      intro hle
      rw [loopIter_err_halt env N code attempt s hx (Nat.not_le.mp hN)
        (by rw [hr]; rfl)]
      simp [invokeCount, List.countP_cons, isInvoke]
      omega
  | case6 code attempt s hx hN f hr hbad =>
      intro hle
      rw [loopIter_err_halt env N code attempt s hx (Nat.not_le.mp hN)
        (by rw [hr]; simp only [repairUsable]; simp [hbad])]
      simp [invokeCount, List.countP_cons, isInvoke]
      omega
  | case7 code attempt s hx hN f hr hgood ih =>
      intro hle
      rw [loopIter_err_step env N code attempt s f hx (Nat.not_le.mp hN) hr
        (by simp only [repairUsable]; simp only [Bool.not_eq_true] at hgood;
            simp [hgood])]
      have h2 : attempt + 1 ≤ N := Nat.not_le.mp hN
      have := ih h2
      simp only [invokeCount, List.countP_append, List.countP_cons] at *
      simp [isInvoke] at *
      omega

theorem loopIter_write_le (env : Env) (N : Nat) :
    ∀ code attempt, attempt ≤ N →
      ∀ k co, Event.writeArtifact k co ∈ (loopIter env N code attempt).1 →
        k ≤ N := by
  intro code attempt
  induction code, attempt using loopIter.induct env N with
  | case1 code attempt hx =>
      intro hle k co hmem
      rw [loopIter_missing env N code attempt hx] at hmem
      simp at hmem
      omega
  | case2 code attempt s hx v hv =>
      intro hle k co hmem
      rw [loopIter_ok_some env N code attempt s v hx hv] at hmem
      simp at hmem
      omega
  | case3 code attempt s hx hv =>
      intro hle k co hmem
      rw [loopIter_ok_none env N code attempt s hx hv] at hmem
      simp at hmem
      omega
  | case4 code attempt s hx hN =>
      intro hle k co hmem
      rw [loopIter_err_last env N code attempt s hx hN] at hmem
      simp at hmem
      omega
  | case5 code attempt s hx hN hr =>
      intro hle k co hmem
      rw [loopIter_err_halt env N code attempt s hx (Nat.not_le.mp hN)
        (by rw [hr]; rfl)] at hmem
      simp at hmem
      omega
  | case6 code attempt s hx hN f hr hbad =>
      intro hle k co hmem
      rw [loopIter_err_halt env N code attempt s hx (Nat.not_le.mp hN)
        (by rw [hr]; simp only [repairUsable]; simp [hbad])] at hmem
      simp at hmem
      omega
  | case7 code attempt s hx hN f hr hgood ih =>
      intro hle k co hmem
      rw [loopIter_err_step env N code attempt s f hx (Nat.not_le.mp hN) hr
        (by simp only [repairUsable]; simp only [Bool.not_eq_true] at hgood;
            simp [hgood])] at hmem
      simp only [List.cons_append, List.nil_append, List.mem_cons] at hmem
      rcases hmem with h1 | h1 | h1 | h1 | h1 | h1
      · cases h1; omega
      · cases h1
      · cases h1
      · cases h1
      · cases h1
      · exact ih (Nat.not_le.mp hN) k co h1

theorem loopIter_snapIndices (env : Env) (N : Nat) :
    ∀ code attempt, ∃ m,
      snapIndices (loopIter env N code attempt).1 = List.range' attempt m := by
  intro code attempt
  induction code, attempt using loopIter.induct env N with
  | case1 code attempt hx =>
      refine ⟨0, ?_⟩
      rw [loopIter_missing env N code attempt hx]
      simp [snapIndices]
  | case2 code attempt s hx v hv =>
      refine ⟨0, ?_⟩
      rw [loopIter_ok_some env N code attempt s v hx hv]
      simp [snapIndices]
  | case3 code attempt s hx hv =>
      refine ⟨0, ?_⟩
      rw [loopIter_ok_none env N code attempt s hx hv]
      simp [snapIndices]
  | case4 code attempt s hx hN =>
      refine ⟨1, ?_⟩
      rw [loopIter_err_last env N code attempt s hx hN]
      simp [snapIndices, List.range']
  | case5 code attempt s hx hN hr =>
      refine ⟨1, ?_⟩
      rw [loopIter_err_halt env N code attempt s hx (Nat.not_le.mp hN)
        (by rw [hr]; rfl)]
      simp [snapIndices, List.range']
  | case6 code attempt s hx hN f hr hbad =>
      refine ⟨1, ?_⟩
      rw [loopIter_err_halt env N code attempt s hx (Nat.not_le.mp hN)
        (by rw [hr]; simp only [repairUsable]; simp [hbad])]
      simp [snapIndices, List.range']
  | case7 code attempt s hx hN f hr hgood ih =>
      obtain ⟨m, hm⟩ := ih
      refine ⟨m + 1, ?_⟩
      rw [loopIter_err_step env N code attempt s f hx (Nat.not_le.mp hN) hr
        (by simp only [repairUsable]; simp only [Bool.not_eq_true] at hgood;
            simp [hgood])]
      simp only [snapIndices, List.cons_append, List.nil_append,
        List.filterMap_cons] at hm ⊢
      rw [hm]
      simp [List.range']

theorem loopIter_counts (env : Env) (N : Nat) :
    ∀ code attempt,
      (((loopIter env N code attempt).2 = .exhaustedRetries ∨
          (loopIter env N code attempt).2 = .repairUnavailable) →
        snapshotCount (loopIter env N code attempt).1 =
          invokeCount (loopIter env N code attempt).1) ∧
      (((∃ v, (loopIter env N code attempt).2 = .succeeded v) ∨
          (loopIter env N code attempt).2 = .fatalNoExecutor) →
        snapshotCount (loopIter env N code attempt).1 + 1 =
          invokeCount (loopIter env N code attempt).1) := by
  intro code attempt
  induction code, attempt using loopIter.induct env N with
  | case1 code attempt hx =>
      rw [loopIter_missing env N code attempt hx]
      constructor
      · rintro (h | h) <;> cases h
      · intro _h
        simp [snapshotCount, invokeCount, List.countP_cons, isSnapshot, isInvoke]
  | case2 code attempt s hx v hv =>
      rw [loopIter_ok_some env N code attempt s v hx hv]
      constructor
      · rintro (h | h) <;> cases h
      · intro _h
        simp [snapshotCount, invokeCount, List.countP_cons, isSnapshot, isInvoke]
  | case3 code attempt s hx hv =>
      rw [loopIter_ok_none env N code attempt s hx hv]
      constructor
      · rintro (h | h) <;> cases h
      · intro _h
        simp [snapshotCount, invokeCount, List.countP_cons, isSnapshot, isInvoke]
  | case4 code attempt s hx hN =>
      rw [loopIter_err_last env N code attempt s hx hN]
      constructor
      · intro _h
        simp [snapshotCount, invokeCount, List.countP_cons, isSnapshot, isInvoke]
      · rintro (⟨v, h⟩ | h) <;> cases h
  | case5 code attempt s hx hN hr =>
      rw [loopIter_err_halt env N code attempt s hx (Nat.not_le.mp hN)
        (by rw [hr]; rfl)]
      constructor
      · intro _h
        simp [snapshotCount, invokeCount, List.countP_cons, isSnapshot, isInvoke]
      · rintro (⟨v, h⟩ | h) <;> cases h
  | case6 code attempt s hx hN f hr hbad =>
      rw [loopIter_err_halt env N code attempt s hx (Nat.not_le.mp hN)
        (by rw [hr]; simp only [repairUsable]; simp [hbad])]
      constructor
      · intro _h
        simp [snapshotCount, invokeCount, List.countP_cons, isSnapshot, isInvoke]
      · rintro (⟨v, h⟩ | h) <;> cases h
  | case7 code attempt s hx hN f hr hgood ih =>
      rw [loopIter_err_step env N code attempt s f hx (Nat.not_le.mp hN) hr
        (by simp only [repairUsable]; simp only [Bool.not_eq_true] at hgood;
            simp [hgood])]
      simp only [snapshotCount, invokeCount, List.cons_append, List.nil_append,
        List.countP_cons, List.countP_append] at ih ⊢
      simp only [isSnapshot, isInvoke] at ih ⊢
      constructor
      · intro h
        have := ih.1 h
        simp at this ⊢
        omega
      · intro h
        have := ih.2 h
        simp at this ⊢
        omega

/-- Checker for the archival discipline of the claims: every repair call for
a failure at a given attempt is preceded in the trace by a snapshot tagged
with that same attempt; `seen` accumulates the already archived indices. -/
def snapBeforeRepair : List Event → List Nat → Bool
  | [], _ => true
  | .snapshot k _ _ :: t, seen => snapBeforeRepair t (k :: seen)
  | .repairCall k _ _ :: t, seen => seen.contains k && snapBeforeRepair t seen
  | _ :: t, seen => snapBeforeRepair t seen

theorem loopIter_snapBeforeRepair (env : Env) (N : Nat) :
    ∀ code attempt seen,
      snapBeforeRepair (loopIter env N code attempt).1 seen = true := by
  intro code attempt
  induction code, attempt using loopIter.induct env N with
  | case1 code attempt hx =>
      intro seen
      rw [loopIter_missing env N code attempt hx]
      simp [snapBeforeRepair]
  | case2 code attempt s hx v hv =>
      intro seen
      rw [loopIter_ok_some env N code attempt s v hx hv]
      simp [snapBeforeRepair]
  | case3 code attempt s hx hv =>
      intro seen
      rw [loopIter_ok_none env N code attempt s hx hv]
      simp [snapBeforeRepair]
  | case4 code attempt s hx hN =>
      intro seen
      rw [loopIter_err_last env N code attempt s hx hN]
      simp [snapBeforeRepair]
  | case5 code attempt s hx hN hr =>
      intro seen
      rw [loopIter_err_halt env N code attempt s hx (Nat.not_le.mp hN)
        (by rw [hr]; rfl)]
      simp [snapBeforeRepair]
  | case6 code attempt s hx hN f hr hbad =>
      intro seen
      rw [loopIter_err_halt env N code attempt s hx (Nat.not_le.mp hN)
        (by rw [hr]; simp only [repairUsable]; simp [hbad])]
      simp [snapBeforeRepair]
  | case7 code attempt s hx hN f hr hgood ih =>
      intro seen
      rw [loopIter_err_step env N code attempt s f hx (Nat.not_le.mp hN) hr
        (by simp only [repairUsable]; simp only [Bool.not_eq_true] at hgood;
            simp [hgood])]
      simp only [List.cons_append, List.nil_append, snapBeforeRepair]
      simp [ih]

/-- State of the live Artifact Store slot, as tracked across the trace:
fresh run, artifact written, byproducts purged, harness invoked. -/
inductive SlotState where
  | start
  | wrote
  | purged
  | done
deriving DecidableEq

/-- Checker for the per-attempt discipline of the Artifact Store: each
attempt writes the artifact, purges the stale byproducts, and only then
invokes the harness; archival and repair actions happen only after the
invocation of the current attempt. -/
def checkWPI : List Event → SlotState → Bool
  | [], _ => true
  | .writeArtifact _ _ :: t, st =>
      (match st with
        | .start => true
        | .done => true
        | _ => false) && checkWPI t .wrote
  | .purge :: t, st =>
      (match st with
        | .wrote => true
        | _ => false) && checkWPI t .purged
  | .invoke _ :: t, st =>
      (match st with
        | .purged => true
        | _ => false) && checkWPI t .done
  | _ :: t, st =>
      (match st with
        | .done => true
        | _ => false) && checkWPI t st

theorem checkWPI_start_done :
    ∀ t, checkWPI t SlotState.start = true → checkWPI t SlotState.done = true := by
  intro t h
  cases t with
  | nil => simp [checkWPI]
  | cons e t =>
      cases e <;> (simp [checkWPI] at h ⊢; try exact h)

theorem loopIter_checkWPI (env : Env) (N : Nat) :
    ∀ code attempt,
      checkWPI (loopIter env N code attempt).1 SlotState.start = true := by
  intro code attempt
  induction code, attempt using loopIter.induct env N with
  | case1 code attempt hx =>
      rw [loopIter_missing env N code attempt hx]
      simp [checkWPI]
  | case2 code attempt s hx v hv =>
      rw [loopIter_ok_some env N code attempt s v hx hv]
      simp [checkWPI]
  | case3 code attempt s hx hv =>
      rw [loopIter_ok_none env N code attempt s hx hv]
      simp [checkWPI]
  | case4 code attempt s hx hN =>
      rw [loopIter_err_last env N code attempt s hx hN]
      simp [checkWPI]
  | case5 code attempt s hx hN hr =>
      rw [loopIter_err_halt env N code attempt s hx (Nat.not_le.mp hN)
        (by rw [hr]; rfl)]
      simp [checkWPI]
  | case6 code attempt s hx hN f hr hbad =>
      rw [loopIter_err_halt env N code attempt s hx (Nat.not_le.mp hN)
        (by rw [hr]; simp only [repairUsable]; simp [hbad])]
      simp [checkWPI]
  | case7 code attempt s hx hN f hr hgood ih =>
      rw [loopIter_err_step env N code attempt s f hx (Nat.not_le.mp hN) hr
        (by simp only [repairUsable]; simp only [Bool.not_eq_true] at hgood;
            simp [hgood])]
      simp only [List.cons_append, List.nil_append, checkWPI]
      simp [checkWPI_start_done _ ih]

/-! ### The fallback-capable harness function -/

/-- The "unsupported option" signature matched by `_run_manim`
(main.py line 312). -/
def noSuchOption : String := "no such option"

/-- `"no such option" in stderrText`. -/
def hasNoSuchOption (e : String) : Bool :=
  substrIn noSuchOption.toList e.toList

/-- Python `"\n".join(part for part in (a, b) if part)`. -/
def combineParts (a b : String) : String :=
  if a = "" then b else if b = "" then a else a ++ "\n" ++ b

/-- Outcomes the external executor would give to the primary (`-pqm` style)
and to the fallback (`-p -qm`) invocation during one `_run_manim` call. -/
structure ManimEnv where
  primary : ExecOutcome
  fallback : ExecOutcome

/-- `_run_manim` (main.py lines 291-328): run the primary command; when it
raises `CalledProcessError` with the "no such option" signature in its
stderr, run the fallback command once and combine the stderr texts; any
other failure is surfaced as-is. First component: the number of subprocess
spawns; second component: `some (success, stderr)`, or `none` for an
uncaught `FileNotFoundError`. -/
def run_manim (m : ManimEnv) : Nat × Option (Bool × String) :=
  match m.primary with
  | .ok s => (1, some (true, s))
  | .missing => (1, none)
  | .err e =>
      if hasNoSuchOption e then
        match m.fallback with
        | .ok s2 => (2, some (true, combineParts e s2))
        | .err e2 => (2, some (false, combineParts e e2))
        | .missing => (2, none)
      else (1, some (false, e))

/-- The fallback invocation was attempted exactly when two subprocesses
were spawned. -/
def fallbackAttempted (m : ManimEnv) : Bool :=
  decide ((run_manim m).1 = 2)

/-! ### Claim theorems -/

/-- C1: for every retry budget `N ≥ 0` and every behaviour of the executor
and of the repair service, one call of the self-healing loop performs at
most `N + 1` Execution Harness invocations, and the attempt counter at the
top of every iteration (recorded on the iteration's artifact write) is at
most `N`; the loop is modelled by a total function, so it terminates
whenever the oracle calls do. -/
theorem C1_budget_and_attempt_invariant :
    ∀ (env : Env) (N : Nat) (code : String),
      invokeCount (run_with_auto_fix env N code).1 ≤ N + 1 ∧
      ∀ k co, Event.writeArtifact k co ∈ (run_with_auto_fix env N code).1 →
        k ≤ N := by
  intro env N code
  constructor
  · have h := loopIter_invokeCount env N code 0 (Nat.zero_le N)
    rw [run_with_auto_fix]
    omega
  · intro k co hmem
    exact loopIter_write_le env N code 0 (Nat.zero_le N) k co hmem

/-- C3: when the generator output is absent or lacks the structural marker
`class AlgorithmAnimation`, `main` never starts the loop: the run ends
`invalid` with zero harness invocations, zero archive snapshots and zero
repair calls. -/
theorem C3_invalid_artifact_never_runs (env : Env) (N : Nat)
    (g : Option String)
    (h : g = none ∨ ∀ s, g = some s → hasMarker s = false) :
    mainDispatch env N g = ([], .invalid) ∧
    invokeCount (mainDispatch env N g).1 = 0 ∧
    snapshotCount (mainDispatch env N g).1 = 0 ∧
    repairCount (mainDispatch env N g).1 = 0 := by
  have hmain : mainDispatch env N g = ([], .invalid) := by
    rcases h with h | h
    · rw [h]; rfl
    · cases g with
      | none => rfl
      | some s =>
          have hs := h s rfl
          simp [mainDispatch, hs]
  refine ⟨hmain, ?_, ?_, ?_⟩ <;>
    rw [hmain] <;> rfl

theorem C3_invalid_artifact_never_runs_witness :
    (((none : Option String) = none ∨
        ∀ s, (none : Option String) = some s → hasMarker s = false)) ∧
    (mainDispatch ⟨fun _ _ => .ok "", fun _ _ _ => none, none⟩ MAX_RETRIES
        none = ([], .invalid) ∧
      invokeCount (mainDispatch ⟨fun _ _ => .ok "", fun _ _ _ => none, none⟩
        MAX_RETRIES none).1 = 0 ∧
      snapshotCount (mainDispatch ⟨fun _ _ => .ok "", fun _ _ _ => none, none⟩
        MAX_RETRIES none).1 = 0 ∧
      repairCount (mainDispatch ⟨fun _ _ => .ok "", fun _ _ _ => none, none⟩
        MAX_RETRIES none).1 = 0) :=
  ⟨Or.inl rfl,
    C3_invalid_artifact_never_runs ⟨fun _ _ => .ok "", fun _ _ _ => none, none⟩
      MAX_RETRIES none (Or.inl rfl)⟩

/-- C4: snapshot attempt indices never repeat (each failed attempt is
archived exactly once and tagged with its own index); every repair call for
a failure is preceded by the snapshot of that same attempt; the number of
snapshots equals the number of harness invocations when the run ends in a
failure state and is one less when the run ends successfully or fatally
(so every failed execution is archived exactly once, before the run
terminates); and a run whose attempt 0 succeeds performs exactly one
harness invocation and writes zero snapshots, for every `N`. -/
theorem C4_exactly_one_snapshot_per_failure :
    ∀ (env : Env) (N : Nat) (code : String),
      (snapIndices (run_with_auto_fix env N code).1).Nodup ∧
      snapBeforeRepair (run_with_auto_fix env N code).1 [] = true ∧
      (((run_with_auto_fix env N code).2 = .exhaustedRetries ∨
          (run_with_auto_fix env N code).2 = .repairUnavailable) →
        snapshotCount (run_with_auto_fix env N code).1 =
          invokeCount (run_with_auto_fix env N code).1) ∧
      (((∃ v, (run_with_auto_fix env N code).2 = .succeeded v) ∨
          (run_with_auto_fix env N code).2 = .fatalNoExecutor) →
        snapshotCount (run_with_auto_fix env N code).1 + 1 =
          invokeCount (run_with_auto_fix env N code).1) ∧
      (∀ s, env.exec 0 code = .ok s →
        invokeCount (run_with_auto_fix env N code).1 = 1 ∧
        snapshotCount (run_with_auto_fix env N code).1 = 0) := by
  intro env N code
  refine ⟨?_, ?_, (loopIter_counts env N code 0).1, (loopIter_counts env N code 0).2, ?_⟩
  · obtain ⟨m, hm⟩ := loopIter_snapIndices env N code 0
    rw [run_with_auto_fix, hm]
    exact List.nodup_range' 0 m
  · exact loopIter_snapBeforeRepair env N code 0 []
  · intro s hx
    rcases hv : env.findVideo with _ | v
    · rw [run_with_auto_fix, loopIter_ok_none env N code 0 s hx hv]
      constructor <;> rfl
    · rw [run_with_auto_fix, loopIter_ok_some env N code 0 s v hx hv]
      constructor <;> rfl

/-- C5: whenever an archived failure is followed by a repair-service result
that is unusable (Python `None`, the empty string, or text missing the
structural marker), the loop terminates immediately with
`repairUnavailable`, performing no further harness invocation; when this
happens on the very first failure, the run has exactly one snapshot and one
invocation, for every `N > 0`. -/
theorem C5_unusable_repair_terminates :
    ∀ (env : Env) (N : Nat),
      (∀ code attempt s, attempt < N → env.exec attempt code = .err s →
        repairUsable (env.repair attempt code s) = false →
        loopIter env N code attempt =
          ([.writeArtifact attempt code, .purge, .invoke attempt,
            .snapshot attempt code s, .repairCall attempt code s],
            .repairUnavailable)) ∧
      (∀ code s, 0 < N → env.exec 0 code = .err s →
        repairUsable (env.repair 0 code s) = false →
        (run_with_auto_fix env N code).2 = .repairUnavailable ∧
        snapshotCount (run_with_auto_fix env N code).1 = 1 ∧
        invokeCount (run_with_auto_fix env N code).1 = 1) := by
  intro env N
  constructor
  · intro code attempt s hN hx hr
    exact loopIter_err_halt env N code attempt s hx hN hr
  · intro code s hN hx hr
    rw [run_with_auto_fix, loopIter_err_halt env N code 0 s hx hN hr]
    refine ⟨rfl, rfl, rfl⟩

/-- C7: within one run, the attempt indices of the failure-archive
snapshots, read in trace order, are exactly `0, 1, 2, ...` with no gaps:
the k-th snapshot carries index `k - 1`. -/
theorem C7_snapshot_indices_consecutive :
    ∀ (env : Env) (N : Nat) (code : String),
      snapIndices (run_with_auto_fix env N code).1 =
        List.range (snapIndices (run_with_auto_fix env N code).1).length := by
  intro env N code
  obtain ⟨m, hm⟩ := loopIter_snapIndices env N code 0
  rw [run_with_auto_fix, hm, List.length_range', List.range_eq_range']

/-- C9: when the executor binary is absent (`FileNotFoundError` from
`subprocess.run`, caught by no function of main.py), the run aborts at once
with a distinct fatal outcome: no snapshot is archived for that attempt, no
repair call is made, and the attempt counter is not advanced. -/
theorem C9_missing_executor_is_fatal :
    ∀ (env : Env) (N : Nat),
      (∀ code attempt, env.exec attempt code = .missing →
        loopIter env N code attempt =
          ([.writeArtifact attempt code, .purge, .invoke attempt],
            .fatalNoExecutor)) ∧
      (∀ code, env.exec 0 code = .missing →
        (run_with_auto_fix env N code).2 = .fatalNoExecutor ∧
        snapshotCount (run_with_auto_fix env N code).1 = 0 ∧
        repairCount (run_with_auto_fix env N code).1 = 0 ∧
        invokeCount (run_with_auto_fix env N code).1 = 1) := by
  intro env N
  constructor
  · intro code attempt hx
    exact loopIter_missing env N code attempt hx
  · intro code hx
    rw [run_with_auto_fix, loopIter_missing env N code 0 hx]
    refine ⟨rfl, rfl, rfl, rfl⟩

/-- C10: when an execution succeeds but no output video is discoverable,
the loop still terminates on that attempt through the success exit: the
absence is reported to the operator, no snapshot is written, no repair call
is made, and no further harness invocation occurs. -/
theorem C10_no_video_still_success_exit :
    ∀ (env : Env) (N : Nat),
      (∀ code attempt s, env.exec attempt code = .ok s →
        env.findVideo = none →
        loopIter env N code attempt =
          ([.writeArtifact attempt code, .purge, .invoke attempt,
            .notifyNoResult], .succeeded none)) ∧
      (∀ code s, env.exec 0 code = .ok s → env.findVideo = none →
        (run_with_auto_fix env N code).2 = .succeeded none ∧
        Event.notifyNoResult ∈ (run_with_auto_fix env N code).1 ∧
        snapshotCount (run_with_auto_fix env N code).1 = 0 ∧
        repairCount (run_with_auto_fix env N code).1 = 0 ∧
        invokeCount (run_with_auto_fix env N code).1 = 1) := by
  intro env N
  constructor
  · intro code attempt s hx hv
    exact loopIter_ok_none env N code attempt s hx hv
  · intro code s hx hv
    rw [run_with_auto_fix, loopIter_ok_none env N code 0 s hx hv]
    refine ⟨rfl, by simp, rfl, rfl, rfl⟩

/-- C2 (amended): the fallback-capable harness function `_run_manim`
attempts the fallback invocation exactly when the primary invocation fails
with the "no such option" signature in its stderr, spawning two
subprocesses in that case and one otherwise; but the self-healing loop
invokes `_render_manim_core`, which performs exactly one subprocess spawn
per attempt and never falls back, so a primary failure of attempt 0 whose
stderr carries the signature is archived as an ordinary failure after
exactly one subprocess invocation. -/
theorem C2_fallback_confined_to_run_manim :
    (∀ m : ManimEnv, fallbackAttempted m = true ↔
      ∃ e, m.primary = .err e ∧ hasNoSuchOption e = true) ∧
    (∀ m : ManimEnv,
      (run_manim m).1 = if fallbackAttempted m then 2 else 1) ∧
    (∀ (env : Env) (N : Nat) (code s : String), env.exec 0 code = .err s →
      List.take 4 (run_with_auto_fix env N code).1 =
        [.writeArtifact 0 code, .purge, .invoke 0, .snapshot 0 code s]) := by
  refine ⟨?_, ?_, ?_⟩
  · intro m
    rcases m with ⟨p, fb⟩
    cases p with
    | ok s => simp [fallbackAttempted, run_manim]
    | missing => simp [fallbackAttempted, run_manim]
    | err e =>
        rcases he : hasNoSuchOption e with _ | _
        · cases fb <;> simp [fallbackAttempted, run_manim, he]
        · cases fb <;> simp [fallbackAttempted, run_manim, he]
  · intro m
    rcases m with ⟨p, fb⟩
    cases p with
    | ok s => simp [fallbackAttempted, run_manim]
    | missing => simp [fallbackAttempted, run_manim]
    | err e =>
        rcases he : hasNoSuchOption e with _ | _
        · cases fb <;> simp [fallbackAttempted, run_manim, he]
        · cases fb <;> simp [fallbackAttempted, run_manim, he]
  · intro env N code s hx
    rcases Nat.lt_or_ge 0 N with hN | hN
    · rcases hu : repairUsable (env.repair 0 code s) with _ | _
      · rw [run_with_auto_fix, loopIter_err_halt env N code 0 s hx hN hu]
        rfl
      · rcases hrep : env.repair 0 code s with _ | f
        · rw [hrep] at hu; cases hu
        · rw [run_with_auto_fix,
            loopIter_err_step env N code 0 s f hx hN hrep (by rw [← hrep]; exact hu)]
          rfl
    · have hN0 : N ≤ 0 := hN
      rw [run_with_auto_fix, loopIter_err_last env N code 0 s hx hN0]
      rfl

/-- Environment for the C2 counterexample: every execution of the loop
fails with a stderr that carries the "no such option" signature, and the
repair service returns Python None. -/
def envC2 : Env :=
  ⟨fun _ _ => .err "Error: no such option: -pql", fun _ _ _ => none, none⟩

/-- C2 (counterexample to the claim as stated): in the loop, a primary
failure of attempt 0 matching the "unsupported option" signature triggers
no fallback: the run performs exactly 1 subprocess invocation for attempt 0
(not 2), writes 1 archive snapshot (not 0), and does not end `Succeeded`. -/
theorem C2_counterexample :
    hasNoSuchOption "Error: no such option: -pql" = true ∧
    run_with_auto_fix envC2 MAX_RETRIES "class AlgorithmAnimation x" =
      ([.writeArtifact 0 "class AlgorithmAnimation x", .purge, .invoke 0,
        .snapshot 0 "class AlgorithmAnimation x" "Error: no such option: -pql",
        .repairCall 0 "class AlgorithmAnimation x"
          "Error: no such option: -pql"], .repairUnavailable) ∧
    invokeCount (run_with_auto_fix envC2 MAX_RETRIES
      "class AlgorithmAnimation x").1 = 1 ∧
    snapshotCount (run_with_auto_fix envC2 MAX_RETRIES
      "class AlgorithmAnimation x").1 = 1 := by
  have hrun : run_with_auto_fix envC2 MAX_RETRIES "class AlgorithmAnimation x" =
      ([.writeArtifact 0 "class AlgorithmAnimation x", .purge, .invoke 0,
        .snapshot 0 "class AlgorithmAnimation x" "Error: no such option: -pql",
        .repairCall 0 "class AlgorithmAnimation x"
          "Error: no such option: -pql"], .repairUnavailable) := by
    rw [run_with_auto_fix,
      loopIter_err_halt envC2 MAX_RETRIES "class AlgorithmAnimation x" 0
        "Error: no such option: -pql" rfl (by decide) rfl]
  refine ⟨by decide, hrun, ?_, ?_⟩ <;> rw [hrun] <;> rfl

/-- Environment for the C6 counterexample: the first execution succeeds and
a video is discovered. -/
def envC6 : Env :=
  ⟨fun _ _ => .ok "", fun _ _ _ => none,
    some "media/videos/generated_algo_scene/480p15/AlgorithmAnimation.mp4"⟩

/-- The ordering asserted by claim C6 (weakest reading): every write of the
artifact to the live slot is preceded, earlier in the trace, by a purge of
the previous byproducts; the Boolean argument records whether a purge has
been seen yet. -/
def writeOnlyAfterPurge : List Event → Bool → Bool
  | [], _ => true
  | .purge :: t, _ => writeOnlyAfterPurge t true
  | .writeArtifact _ _ :: t, seen => seen && writeOnlyAfterPurge t seen
  | _ :: t, seen => writeOnlyAfterPurge t seen

/-- C6 (counterexample to the claim as stated): the loop writes the new
artifact BEFORE purging the previous byproducts (`save_code` on line 244
precedes `clean_previous_outputs` on line 245), so already in a
single-attempt successful run the write is not preceded by any purge. -/
theorem C6_counterexample :
    run_with_auto_fix envC6 MAX_RETRIES "class AlgorithmAnimation x" =
      ([.writeArtifact 0 "class AlgorithmAnimation x", .purge, .invoke 0],
        .succeeded
          (some "media/videos/generated_algo_scene/480p15/AlgorithmAnimation.mp4")) ∧
    writeOnlyAfterPurge
      (run_with_auto_fix envC6 MAX_RETRIES "class AlgorithmAnimation x").1
      false = false := by
  have hrun : run_with_auto_fix envC6 MAX_RETRIES "class AlgorithmAnimation x" =
      ([.writeArtifact 0 "class AlgorithmAnimation x", .purge, .invoke 0],
        .succeeded
          (some "media/videos/generated_algo_scene/480p15/AlgorithmAnimation.mp4")) := by
    rw [run_with_auto_fix,
      loopIter_ok_some envC6 MAX_RETRIES "class AlgorithmAnimation x" 0 ""
        "media/videos/generated_algo_scene/480p15/AlgorithmAnimation.mp4" rfl rfl]
  refine ⟨hrun, ?_⟩
  rw [hrun]
  rfl

/-- C6 (amended): on every attempt the loop first writes the new artifact
to the live slot, then purges the previous execution byproducts, and the
purge completes before the Execution Harness is invoked for that attempt;
at most one attempt is live at a time (the write/purge/invoke triple of the
next attempt starts only after the previous attempt is fully processed). -/
theorem C6_write_then_purge_then_invoke :
    ∀ (env : Env) (N : Nat) (code : String),
      checkWPI (run_with_auto_fix env N code).1 SlotState.start = true := by
  intro env N code
  exact loopIter_checkWPI env N code 0

/-! ### Failure Archive naming: slugification and snapshot base names -/

/-- ASCII whitespace, as recognized by Python `str.strip()` and by the
regex class used in `slugify_algorithm_name` (the model restricts the
unicode-aware Python semantics to the ASCII range). -/
def pyIsSpace (c : Char) : Bool :=
  c = ' ' || c = '\t' || c = '\n' || c = '\r' || c = '\x0b' || c = '\x0c'

/-- Python `str.strip()`: drop leading and trailing whitespace. -/
def pyStrip (l : List Char) : List Char :=
  ((l.dropWhile pyIsSpace).reverse.dropWhile pyIsSpace).reverse

/-- One pass of the substitution replacing every maximal whitespace run
with a single underscore; the flag records whether the previous character
was whitespace. -/
def collapseWsAux : Bool → List Char → List Char
  | _, [] => []
  | inRun, c :: t =>
      if pyIsSpace c then
        if inRun then collapseWsAux true t else '_' :: collapseWsAux true t
      else c :: collapseWsAux false t

/-- The safe identifier set kept by the second substitution of
`slugify_algorithm_name`: lowercase letters, digits, underscore. -/
def isSafeChar (c : Char) : Bool :=
  ('a' ≤ c && c ≤ 'z') || ('0' ≤ c && c ≤ '9') || c = '_'

/-- The character list produced by the three rewriting steps of
`slugify_algorithm_name`: strip, lowercase, collapse whitespace runs to
single underscores, drop every character outside the safe set. -/
def slugKept (name : String) : List Char :=
  (collapseWsAux false ((pyStrip name.toList).map Char.toLower)).filter
    isSafeChar

/-- `slugify_algorithm_name` (main.py lines 40-50), with the final
`return name or "algorithm"` default. -/
def slugify_algorithm_name (name : String) : String :=
  if (slugKept name).isEmpty then "algorithm" else String.mk (slugKept name)

/-- The slugification as the claim describes it (lowercase, collapse
whitespace to a single underscore, strip characters outside the safe set,
placeholder when empty), without the initial boundary-whitespace strip the
code performs. -/
def slugifyDescribed (name : String) : String :=
  if ((collapseWsAux false (name.toList.map Char.toLower)).filter
      isSafeChar).isEmpty then "algorithm"
  else
    String.mk ((collapseWsAux false (name.toList.map Char.toLower)).filter
      isSafeChar)

/-- Decimal digit character, `chr(48 + d)`. -/
def decDigitChar (d : Nat) : Char := Char.ofNat (48 + d)

/-- The decimal numeral of `n`, most significant digit first, as Python
`str(n)` writes it into the f-string of `save_error_snapshot`. -/
def natToDecimal (n : Nat) : List Char :=
  if n = 0 then ['0'] else ((Nat.digits 10 n).map decDigitChar).reverse

/-- The snapshot base name of `save_error_snapshot` (main.py line 66):
slug, timestamp and attempt index joined by underscores and the literal
`attempt`. -/
def snapshotBaseName (algorithmName ts : String) (attemptIndex : Nat) :
    String :=
  slugify_algorithm_name algorithmName ++ "_" ++ ts ++ "_attempt" ++
    String.mk (natToDecimal attemptIndex)

theorem decDigitChar_inj_lt :
    ∀ d1, d1 < 10 → ∀ d2, d2 < 10 →
      decDigitChar d1 = decDigitChar d2 → d1 = d2 := by decide

theorem decDigitChar_isDigit : ∀ d, d < 10 → (decDigitChar d).isDigit = true := by
  decide

theorem map_decDigitChar_inj :
    ∀ (l1 l2 : List Nat), (∀ d ∈ l1, d < 10) → (∀ d ∈ l2, d < 10) →
      l1.map decDigitChar = l2.map decDigitChar → l1 = l2 := by
  intro l1
  induction l1 with
  | nil =>
      intro l2 _ _ h
      cases l2 with
      | nil => rfl
      | cons d t => simp at h
  | cons d t ih =>
      intro l2 h1 h2 h
      cases l2 with
      | nil => simp at h
      | cons e u =>
          simp only [List.map_cons, List.cons.injEq] at h
          have hd : d = e :=
            decDigitChar_inj_lt d (h1 d (by simp)) e (h2 e (by simp)) h.1
          have ht : t = u :=
            ih u (fun x hx => h1 x (by simp [hx]))
              (fun x hx => h2 x (by simp [hx])) h.2
          rw [hd, ht]

theorem natToDecimal_all_digits :
    ∀ n c, c ∈ natToDecimal n → c.isDigit = true := by
  intro n c hc
  rw [natToDecimal] at hc
  by_cases hn : n = 0
  · rw [if_pos hn] at hc
    simp at hc
    rw [hc]
    decide
  · rw [if_neg hn] at hc
    simp only [List.mem_reverse, List.mem_map] at hc
    obtain ⟨d, hd, rfl⟩ := hc
    exact decDigitChar_isDigit d (Nat.digits_lt_base (by norm_num) hd)

theorem natToDecimal_inj : ∀ m n, natToDecimal m = natToDecimal n → m = n := by
  have key : ∀ n, n ≠ 0 → natToDecimal n ≠ ['0'] := by
    intro n hn hcontra
    rw [natToDecimal, if_neg hn] at hcontra
    have h2 : (Nat.digits 10 n).map decDigitChar = ['0'] := by
      have := congrArg List.reverse hcontra
      simpa using this
    rcases hd : Nat.digits 10 n with _ | ⟨d, t⟩
    · rw [hd] at h2; simp at h2
    · rw [hd] at h2
      simp only [List.map_cons, List.cons.injEq, List.map_eq_nil_iff] at h2
      have hdlt : d < 10 :=
        Nat.digits_lt_base (by norm_num) (by rw [hd]; simp)
      have hd0 : d = 0 := by
        have : decDigitChar d = decDigitChar 0 := by
          rw [h2.1]; rfl
        exact decDigitChar_inj_lt d hdlt 0 (by norm_num) this
      have hofd := Nat.ofDigits_digits 10 n
      rw [hd, hd0, h2.2] at hofd
      simp [Nat.ofDigits] at hofd
      exact hn hofd.symm
  intro m n h
  by_cases hm : m = 0 <;> by_cases hn : n = 0
  · rw [hm, hn]
  · exfalso
    rw [hm] at h
    exact key n hn (by rw [← h]; rfl)
  · exfalso
    rw [hn] at h
    exact key m hm h
  · rw [natToDecimal, if_neg hm, natToDecimal, if_neg hn] at h
    have h2 : (Nat.digits 10 m).map decDigitChar =
        (Nat.digits 10 n).map decDigitChar := by
      rw [← List.reverse_inj]
      exact h
    have h3 : Nat.digits 10 m = Nat.digits 10 n :=
      map_decDigitChar_inj _ _
        (fun d hd => Nat.digits_lt_base (by norm_num) hd)
        (fun d hd => Nat.digits_lt_base (by norm_num) hd) h2
    have h4 := Nat.ofDigits_digits 10 m
    rw [h3, Nat.ofDigits_digits] at h4
    exact h4.symm

theorem takeWhile_all_append {p : Char → Bool} :
    ∀ (xs : List Char) (y : Char) (ys : List Char),
      (∀ x ∈ xs, p x = true) → p y = false →
      (xs ++ y :: ys).takeWhile p = xs ∧
        (xs ++ y :: ys).dropWhile p = y :: ys := by
  intro xs
  induction xs with
  | nil =>
      intro y ys _ hy
      simp [List.takeWhile_cons, List.dropWhile_cons, hy]
  | cons x t ih =>
      intro y ys hall hy
      have hx : p x = true := hall x (by simp)
      have := ih y ys (fun z hz => hall z (by simp [hz])) hy
      simp [List.takeWhile_cons, List.dropWhile_cons, hx, this.1, this.2]

theorem isSafeChar_ne_T : ∀ c, isSafeChar c = true → ¬(c = 'T') := by
  intro c h he
  rw [he] at h
  exact absurd h (by decide)

theorem isDigit_ne_T : ∀ c : Char, c.isDigit = true → ¬(c = 'T') := by
  intro c h he
  rw [he] at h
  exact absurd h (by decide)

theorem slug_all_safe :
    ∀ s c, c ∈ (slugify_algorithm_name s).toList → isSafeChar c = true := by
  intro s c hc
  rw [slugify_algorithm_name] at hc
  by_cases hk : (slugKept s).isEmpty
  · rw [if_pos hk] at hc
    have : c ∈ ['a', 'l', 'g', 'o', 'r', 'i', 't', 'h', 'm'] := hc
    simp at this
    rcases this with rfl | rfl | rfl | rfl | rfl | rfl | rfl | rfl | rfl <;>
      decide
  · rw [if_neg hk] at hc
    exact (List.mem_filter.mp hc).2

/-- The word `attempt` as written into the snapshot base name. -/
def attemptWord : List Char := ['a', 't', 't', 'e', 'm', 'p', 't']

theorem prefix_split_inj :
    ∀ (s₁ s₂ p₁ p₂ Y₁ Y₂ : List Char),
      (∀ c ∈ s₁, isSafeChar c = true) → (∀ c ∈ s₂, isSafeChar c = true) →
      p₁.length = 8 → p₂.length = 8 →
      (∀ c ∈ p₁, c.isDigit = true) → (∀ c ∈ p₂, c.isDigit = true) →
      (s₁ ++ '_' :: p₁) ++ 'T' :: Y₁ = (s₂ ++ '_' :: p₂) ++ 'T' :: Y₂ →
      s₁ = s₂ ∧ p₁ = p₂ ∧ Y₁ = Y₂ := by
  intro s₁ s₂ p₁ p₂ Y₁ Y₂ hs₁ hs₂ hp₁ hp₂ hd₁ hd₂ h
  have noT₁ : ∀ c ∈ s₁ ++ '_' :: p₁, (!(c = 'T' : Bool)) = true := by
    intro c hc
    simp only [List.mem_append, List.mem_cons] at hc
    rcases hc with hc | hc | hc
    · simp [decide_eq_true_eq]
      exact isSafeChar_ne_T c (hs₁ c hc)
    · rw [hc]; decide
    · simp [decide_eq_true_eq]
      exact isDigit_ne_T c (hd₁ c hc)
  have noT₂ : ∀ c ∈ s₂ ++ '_' :: p₂, (!(c = 'T' : Bool)) = true := by
    intro c hc
    simp only [List.mem_append, List.mem_cons] at hc
    rcases hc with hc | hc | hc
    · simp [decide_eq_true_eq]
      exact isSafeChar_ne_T c (hs₂ c hc)
    · rw [hc]; decide
    · simp [decide_eq_true_eq]
      exact isDigit_ne_T c (hd₂ c hc)
  have hTfalse : (!('T' = 'T' : Bool)) = false := by decide
  have split₁ := takeWhile_all_append (s₁ ++ '_' :: p₁) 'T' Y₁ noT₁ hTfalse
  have split₂ := takeWhile_all_append (s₂ ++ '_' :: p₂) 'T' Y₂ noT₂ hTfalse
  have htake : s₁ ++ '_' :: p₁ = s₂ ++ '_' :: p₂ := by
    rw [← split₁.1, ← split₂.1, h]
  have hdrop : ('T' :: Y₁ : List Char) = 'T' :: Y₂ := by
    rw [← split₁.2, ← split₂.2, h]
  have hY : Y₁ = Y₂ := by
    injection hdrop
  have hrev := congrArg List.reverse htake
  simp only [List.reverse_append, List.reverse_cons, List.append_assoc,
    List.singleton_append] at hrev
  have hlen : p₁.reverse.length = p₂.reverse.length := by
    simp [hp₁, hp₂]
  obtain ⟨hpr, hsr⟩ := List.append_inj hrev hlen
  refine ⟨?_, ?_, hY⟩
  · have : s₁.reverse = s₂.reverse := by
      injection hsr
    exact List.reverse_inj.mp this
  · exact List.reverse_inj.mp hpr

/-- C8 (counterexample to the claim as stated): the base name is NOT
unique for every distinct `(task identity, timestamp, attempt index)`
triple, because two distinct task identities with the same slug (here `A`
and `a`) produce identical names at the same timestamp and index. -/
theorem C8_counterexample :
    ("A" : String) ≠ "a" ∧
    snapshotBaseName "A" "20250101T000000" 0 =
      snapshotBaseName "a" "20250101T000000" 0 := by
  constructor
  · decide
  · rfl

/-- C8 (amended): the snapshot base name is generated from the slugified
task identity, the timestamp and the attempt index, and is unique for
every distinct `(slugified task identity, timestamp, attempt index)`
triple (identities with equal slugs collide); the slugification strips
leading and trailing whitespace and then, as the claim describes,
lowercases, collapses whitespace runs to a single underscore, strips every
character outside lowercase letters, digits and underscore, and yields the
placeholder `algorithm` when the result would be empty. -/
theorem C8_snapshot_name_unique_per_slug :
    (∀ s, slugify_algorithm_name s =
      slugifyDescribed (String.mk (pyStrip s.toList))) ∧
    (∀ (a b : String) (p₁ q₁ p₂ q₂ : List Char) (i j : Nat),
      p₁.length = 8 → q₁.length = 6 → p₂.length = 8 → q₂.length = 6 →
      (∀ c ∈ p₁, c.isDigit = true) → (∀ c ∈ p₂, c.isDigit = true) →
      snapshotBaseName a (String.mk (p₁ ++ 'T' :: q₁)) i =
        snapshotBaseName b (String.mk (p₂ ++ 'T' :: q₂)) j →
      slugify_algorithm_name a = slugify_algorithm_name b ∧
        p₁ = p₂ ∧ q₁ = q₂ ∧ i = j) := by
  constructor
  · intro s
    rfl
  · intro a b p₁ q₁ p₂ q₂ i j hp₁ hq₁ hp₂ hq₂ hd₁ hd₂ h
    have hl := congrArg String.data h
    simp only [snapshotBaseName, String.data_append] at hl
    have hl2 :
        ((slugify_algorithm_name a).toList ++ '_' :: p₁) ++
            'T' :: (q₁ ++ '_' :: (attemptWord ++ natToDecimal i)) =
          ((slugify_algorithm_name b).toList ++ '_' :: p₂) ++
            'T' :: (q₂ ++ '_' :: (attemptWord ++ natToDecimal j)) := by
      simp only [attemptWord, List.append_assoc, List.cons_append,
        List.singleton_append]
      simp only [List.append_assoc, List.cons_append,
        List.singleton_append] at hl
      exact hl
    have key := prefix_split_inj (slugify_algorithm_name a).toList
      (slugify_algorithm_name b).toList p₁ p₂
      (q₁ ++ '_' :: (attemptWord ++ natToDecimal i))
      (q₂ ++ '_' :: (attemptWord ++ natToDecimal j))
      (slug_all_safe a) (slug_all_safe b) hp₁ hp₂ hd₁ hd₂ hl2
    obtain ⟨hslug, hp, hY⟩ := key
    obtain ⟨hq, htail⟩ := List.append_inj hY (by rw [hq₁, hq₂])
    have hdec : natToDecimal i = natToDecimal j := by
      have h5 : (attemptWord ++ natToDecimal i : List Char) =
          attemptWord ++ natToDecimal j := by
        injection htail
      exact (List.append_inj h5 rfl).2
    refine ⟨String.ext hslug, hp, hq, natToDecimal_inj i j hdec⟩

end AlgoAnim
